import Mathlib

/-!
Shallow embedding of the guardrail pipeline of `nurse_api`:
the compliance evaluator `app/services/compliance_checker.py` and the
orchestrating route handlers `app/routers/patient_education.py` and
`app/routers/clinical_summaries.py`.  Text is modelled as `List Char`;
Python regular-expression search is modelled by a small nondeterministic
matching engine covering exactly the constructs those patterns use
(character classes, concatenation, alternation, star over a class, word
boundaries, negative lookahead).
-/

namespace NurseApi

set_option maxRecDepth 16384

/-- Text, as Python strings restricted to their character sequence. -/
abbrev Str := List Char

/-- ASCII model of Python `str.lower`: uppercase letters map to lowercase,
every other character is unchanged. -/
def lowerChar (c : Char) : Char :=
  match c with
  | 'A' => 'a' | 'B' => 'b' | 'C' => 'c' | 'D' => 'd' | 'E' => 'e'
  | 'F' => 'f' | 'G' => 'g' | 'H' => 'h' | 'I' => 'i' | 'J' => 'j'
  | 'K' => 'k' | 'L' => 'l' | 'M' => 'm' | 'N' => 'n' | 'O' => 'o'
  | 'P' => 'p' | 'Q' => 'q' | 'R' => 'r' | 'S' => 's' | 'T' => 't'
  | 'U' => 'u' | 'V' => 'v' | 'W' => 'w' | 'X' => 'x' | 'Y' => 'y'
  | 'Z' => 'z'
  | c => c

/-- Python `str.lower` on a whole string. -/
def lowerStr (s : Str) : Str := s.map lowerChar

/-- The uppercase ASCII letters, the only characters `lowerChar` moves. -/
def upperChars : List Char :=
  ['A', 'B', 'C', 'D', 'E', 'F', 'G', 'H', 'I', 'J', 'K', 'L', 'M',
   'N', 'O', 'P', 'Q', 'R', 'S', 'T', 'U', 'V', 'W', 'X', 'Y', 'Z']

theorem lowerChar_eq_self {c : Char} (h : c ∉ upperChars) : lowerChar c = c := by
  unfold lowerChar
  split <;> simp_all [upperChars]

theorem lowerChar_invariant (p : Char → Bool)
    (h : ∀ c ∈ upperChars, p (lowerChar c) = p c) :
    ∀ c, p (lowerChar c) = p c := by
  intro c
  by_cases hc : c ∈ upperChars
  · exact h c hc
  · rw [lowerChar_eq_self hc]

theorem lowerChar_idem (c : Char) : lowerChar (lowerChar c) = lowerChar c := by
  by_cases hc : c ∈ upperChars
  · fin_cases hc <;> rfl
  · simp [lowerChar_eq_self hc]

/-! ### Character classes used by the patterns of `compliance_checker.py` -/

/-- Python regex `\d` (ASCII). -/
def isDigitChar (c : Char) : Bool := c.isDigit

/-- Python regex `\s` (ASCII): space, tab, newline, return, vertical tab, form feed. -/
def isWsChar (c : Char) : Bool :=
  c = ' ' || c = '\t' || c = '\n' || c = '\r' || c = '\x0b' || c = '\x0c'

/-- Python regex `\w` (ASCII), which fixes the meaning of `\b`. -/
def isWordChar (c : Char) : Bool := c.isAlphanum || c = '_'

/-! ### A small engine for the regular expressions of `compliance_checker.py`

A regex is matched against a position inside the text; a matcher state is
the character just before the position (`none` at the start of the text)
paired with the remaining text, so that `\b` can be decided locally.
`reMatch` returns every state the pattern can leave the matcher in, and
`reSearch` is Python `re.search` as a Boolean: some start position admits
a match. -/

/-- The regular-expression constructs used by the checker's patterns. -/
inductive RE where
  /-- Empty pattern. -/
  | eps : RE
  /-- A single character from a class. -/
  | cls (p : Char → Bool) : RE
  /-- Concatenation. -/
  | seq (a b : RE) : RE
  /-- Alternation. -/
  | alt (a b : RE) : RE
  /-- Kleene star over a character class (the only starred forms used). -/
  | starCls (p : Char → Bool) : RE
  /-- Word boundary `\b`. -/
  | wordB : RE
  /-- Negative lookahead `(?! a)`. -/
  | nla (a : RE) : RE

/-- Whether the character before the current position is a word character. -/
def prevIsWord : Option Char → Bool
  | none => false
  | some c => isWordChar c

/-- Whether the character at the current position is a word character. -/
def headIsWord : Str → Bool
  | [] => false
  | c :: _ => isWordChar c

/-- Python `\b`: word-character status changes across the position. -/
def boundaryAt (prev : Option Char) (s : Str) : Bool :=
  prevIsWord prev != headIsWord s

/-- Map over a list and concatenate the results. -/
def catMap (f : α → List β) : List α → List β
  | [] => []
  | a :: as => f a ++ catMap f as

/-- All states reachable by consuming a (possibly empty) run of characters
of class `p`: every stop point inside the maximal `p`-run. -/
def clsRun (p : Char → Bool) : Option Char → Str → List (Option Char × Str)
  | prev, [] => [(prev, [])]
  | prev, c :: cs =>
      (prev, c :: cs) :: (if p c then clsRun p (some c) cs else [])

/-- All states a pattern can leave the matcher in from the given state. -/
def reMatch : RE → Option Char → Str → List (Option Char × Str)
  | .eps, prev, s => [(prev, s)]
  | .cls _, _, [] => []
  | .cls p, _, c :: cs => if p c then [(some c, cs)] else []
  | .seq a b, prev, s => catMap (fun st => reMatch b st.1 st.2) (reMatch a prev s)
  | .alt a b, prev, s => reMatch a prev s ++ reMatch b prev s
  | .starCls p, prev, s => clsRun p prev s
  | .wordB, prev, s => if boundaryAt prev s then [(prev, s)] else []
  | .nla a, prev, s => if (reMatch a prev s).isEmpty then [(prev, s)] else []

/-- Search from the current position onward: Python `re.search` restricted
to a Boolean verdict. -/
def reSearchAux (re : RE) : Option Char → Str → Bool
  | prev, [] => !(reMatch re prev []).isEmpty
  | prev, c :: cs => !(reMatch re prev (c :: cs)).isEmpty || reSearchAux re (some c) cs

/-- Python `re.search(pattern, s)` as a Boolean verdict. -/
def reSearch (re : RE) (s : Str) : Bool := reSearchAux re none s

/-! ### Pattern constructors -/

/-- Concatenation of a list of patterns. -/
def reSeq (l : List RE) : RE := l.foldr .seq .eps

/-- A literal string, one class per character. -/
def lit (s : Str) : RE := reSeq (s.map fun c => .cls fun x => x = c)

/-- A literal string under `re.IGNORECASE` (the literal is lowercase). -/
def litCI (s : Str) : RE := reSeq (s.map fun c => .cls fun x => lowerChar x = c)

/-- Exactly `n` characters of class `p` (regex `p{n}`). -/
def reps (n : Nat) (p : Char → Bool) : RE := reSeq (List.replicate n (.cls p))

/-- One or more characters of class `p` (regex `p+`). -/
def plusC (p : Char → Bool) : RE := .seq (.cls p) (.starCls p)

/-- Zero or one character of class `p` (regex `p?`). -/
def optC (p : Char → Bool) : RE := .alt (.cls p) .eps

/-- A keyword between word boundaries (regex `\b s \b`). -/
def wlit (s : Str) : RE := reSeq [.wordB, lit s, .wordB]

/-! ### The patterns of `ComplianceCheckerService.__init__` and its methods -/

/-- Class `[\s-]` of the credit-card pattern. -/
def ccSepC (c : Char) : Bool := isWsChar c || c = '-'

/-- Class `-` (a literal dash). -/
def dashC (c : Char) : Bool := c = '-'

/-- Class `@` of the email pattern. -/
def atC (c : Char) : Bool := c = '@'

/-- Class `\.` (a literal dot). -/
def dotC (c : Char) : Bool := c = '.'

/-- Class `:` of the identifier patterns. -/
def colonC (c : Char) : Bool := c = ':'

/-- Class `[A-Za-z0-9._%+-]` of the email pattern. -/
def emailLocalC (c : Char) : Bool :=
  c.isAlpha || c.isDigit || c = '.' || c = '_' || c = '%' || c = '+' || c = '-'

/-- Class `[A-Za-z0-9.-]` of the email pattern. -/
def emailDomC (c : Char) : Bool := c.isAlpha || c.isDigit || c = '.' || c = '-'

/-- Class `[A-Z|a-z]` of the email pattern (the source's class includes a bar). -/
def emailTldC (c : Char) : Bool := c.isAlpha || c = '|'

/-- Class of a slash or dash, the date separator of the DOB pattern. -/
def dobSepC (c : Char) : Bool := c = '/' || c = '-'

/-- Class `[-.\s]` of the phone pattern. -/
def phoneSepC (c : Char) : Bool := c = '-' || c = '.' || isWsChar c

/-- SSN pattern `\b\d{3}-\d{2}-\d{4}\b`. -/
def ssnPat : RE :=
  reSeq [.wordB, reps 3 isDigitChar, .cls dashC, reps 2 isDigitChar,
         .cls dashC, reps 4 isDigitChar, .wordB]

/-- Credit-card pattern `\b\d{4}[\s-]?\d{4}[\s-]?\d{4}[\s-]?\d{4}\b`. -/
def ccPat : RE :=
  reSeq [.wordB, reps 4 isDigitChar, optC ccSepC, reps 4 isDigitChar,
         optC ccSepC, reps 4 isDigitChar, optC ccSepC, reps 4 isDigitChar, .wordB]

/-- Email pattern `\b[A-Za-z0-9._%+-]+@[A-Za-z0-9.-]+\.[A-Z|a-z]{2,}\b`. -/
def emailPat : RE :=
  reSeq [.wordB, plusC emailLocalC, .cls atC, plusC emailDomC, .cls dotC,
         reps 2 emailTldC, .starCls emailTldC, .wordB]

/-- `self.sensitive_patterns`, searched without `re.IGNORECASE`. -/
def sensitive_patterns : List RE := [ssnPat, ccPat, emailPat]

/-- Medical-record-number pattern `\bMRN\s*:?\s*\d+` (IGNORECASE). -/
def mrnPat : RE :=
  reSeq [.wordB, litCI "mrn".data, .starCls isWsChar, optC colonC,
         .starCls isWsChar, plusC isDigitChar]

/-- Date-of-birth pattern `\bDOB\s*:?\s*\d{1,2}[slash-or-dash]\d{1,2}[slash-or-dash]\d{2,4}` (separators written out to avoid comment syntax) (IGNORECASE). -/
def dobPat : RE :=
  reSeq [.wordB, litCI "dob".data, .starCls isWsChar, optC colonC, .starCls isWsChar,
         .cls isDigitChar, optC isDigitChar, .cls dobSepC,
         .cls isDigitChar, optC isDigitChar, .cls dobSepC,
         reps 2 isDigitChar, optC isDigitChar, optC isDigitChar]

/-- Phone pattern `\bphone\s*:?\s*\d{3}[-.\s]?\d{3}[-.\s]?\d{4}` (IGNORECASE). -/
def phonePat : RE :=
  reSeq [.wordB, litCI "phone".data, .starCls isWsChar, optC colonC, .starCls isWsChar,
         reps 3 isDigitChar, optC phoneSepC, reps 3 isDigitChar,
         optC phoneSepC, reps 4 isDigitChar]

/-- The `identifier_patterns` of `check_clinical_data`. -/
def identifier_patterns : List RE := [mrnPat, dobPat, phonePat]

/-- The `definitive_patterns` of `check_content`. -/
def definitive_patterns : List RE :=
  [wlit "you should".data, wlit "you must".data, wlit "you will".data,
   wlit "guaranteed".data, wlit "certain".data, wlit "definitely".data]

/-- `\bpatient has\b(?!\s+(history|symptoms|signs))`. -/
def diagPat1 : RE :=
  reSeq [.wordB, lit "patient has".data, .wordB,
         .nla (.seq (plusC isWsChar)
                (.alt (lit "history".data) (.alt (lit "symptoms".data) (lit "signs".data))))]

/-- `\bdiagnosed with\b(?!\s+(possible|probable|suspected))`. -/
def diagPat2 : RE :=
  reSeq [.wordB, lit "diagnosed with".data, .wordB,
         .nla (.seq (plusC isWsChar)
                (.alt (lit "possible".data) (.alt (lit "probable".data) (lit "suspected".data))))]

/-- The `diagnostic_patterns` of `check_clinical_content`. -/
def diagnostic_patterns : List RE :=
  [diagPat1, diagPat2, wlit "certainly".data, wlit "obviously".data, wlit "clearly".data]

/-- The lookahead body `\s+review`. -/
def wsReviewPat : RE := .seq (plusC isWsChar) (lit "review".data)

/-- `\brequires\b(?!\s+review)`. -/
def treatReqPat : RE :=
  reSeq [.wordB, lit "requires".data, .wordB, .nla wsReviewPat]

/-- The `treatment_patterns` of `check_clinical_content`. -/
def treatment_patterns : List RE :=
  [wlit "should receive".data, wlit "must take".data, treatReqPat]

/-! ### Substring containment and the flag-accumulation loops -/

/-- Whether the first string is a leading segment of the second. -/
def startsWith : Str → Str → Bool
  | [], _ => true
  | _ :: _, [] => false
  | a :: as, b :: bs => a = b && startsWith as bs

/-- Python `needle in hay` for strings: substring containment. -/
def isSub (needle : Str) : Str → Bool
  | [] => needle.isEmpty
  | c :: cs => startsWith needle (c :: cs) || isSub needle cs

/-- A keyword loop appending a per-term message for every matching term. -/
def termFlags (mk : Str → Str) (hay : Str) : List Str → List Str
  | [] => []
  | t :: ts => (if isSub t hay then [mk t] else []) ++ termFlags mk hay ts

/-- A pattern loop appending `msg` once per matching pattern (exhaustive scan). -/
def eachMatchFlag (msg : Str) (s : Str) : List RE → List Str
  | [] => []
  | p :: ps => (if reSearch p s then [msg] else []) ++ eachMatchFlag msg s ps

/-- A pattern loop that appends `msg` for its first matching pattern and
stops (the `for ... break` loops of the source). -/
def firstMatchFlag (msg : Str) (s : Str) : List RE → List Str
  | [] => []
  | p :: ps => if reSearch p s then [msg] else firstMatchFlag msg s ps

/-! ### `ComplianceResult` and the four evaluator operations -/

/-- The result value object of `compliance_checker.py`. -/
structure ComplianceResult where
  is_compliant : Bool
  reason : Str
  flags : List Str
deriving DecidableEq

/-- Python `"; ".join(flags)`. -/
def joinSemi : List Str → Str
  | [] => []
  | [f] => f
  | f :: fs => f ++ "; ".data ++ joinSemi fs

/-- The result construction every evaluator method ends with:
`is_compliant = len(flags) == 0` and
`reason = "; ".join(flags) if flags else ""`. -/
def mkResult (flags : List Str) : ComplianceResult :=
  { is_compliant := flags.length == 0
    reason := if flags.isEmpty then [] else joinSemi flags
    flags := flags }

/-- `self.inappropriate_terms`. -/
def inappropriate_terms : List Str :=
  ["guarantee".data, "cure".data, "miracle".data, "breakthrough".data,
   "secret".data, "hidden".data, "conspiracy".data, "big pharma".data]

/-- The `sensitive_topics` list of `check_request`. -/
def sensitive_topics : List Str :=
  ["suicide".data, "self-harm".data, "overdose".data, "addiction".data]

/-- The hedging-term list of `check_clinical_content`. -/
def hedging_terms : List Str :=
  ["appears".data, "suggests".data, "indicates".data, "consistent with".data,
   "possible".data, "probable".data, "likely".data, "may indicate".data]

/-- Message `f"Inappropriate term detected: {term}"`. -/
def inappTermMsg (t : Str) : Str := "Inappropriate term detected: ".data ++ t

/-- Message `f"Inappropriate claim detected: {term}"`. -/
def inappClaimMsg (t : Str) : Str := "Inappropriate claim detected: ".data ++ t

/-- Word-count message of `check_request`. -/
def wcMsg : Str := "Word count exceeds maximum safe limit".data

/-- Sensitive-topic message of `check_request`. -/
def sensMsg : Str := "Sensitive topic requires enhanced review".data

/-- Definitive-advice message of `check_content`. -/
def defAdviceMsg : Str := "Content contains definitive medical advice".data

/-- Prescriptive-content message of `check_content`. -/
def prescriptiveMsg : Str := "Content may be too prescriptive".data

/-- PII message of `check_clinical_data`. -/
def piiMsg : Str := "Potential PII detected - ensure data is properly de-identified".data

/-- Identifier message of `check_clinical_data`. -/
def identMsg : Str := "Potential patient identifier detected".data

/-- Data-length message of `check_clinical_data`. -/
def longDataMsg : Str := "Patient data unusually long - review for completeness".data

/-- Unqualified-diagnostic message of `check_clinical_content`. -/
def diagMsg : Str := "Content contains unqualified diagnostic statements".data

/-- Missing-hedging message of `check_clinical_content`. -/
def hedgeMsg : Str := "Clinical summary lacks appropriate hedging language".data

/-- Definitive-treatment message of `check_clinical_content`. -/
def treatMsg : Str := "Content contains definitive treatment recommendations".data

/-- The fields of the `request_data` dict that `check_request` reads
(`model_dump` of a request; fields the method never reads are omitted).
`none` stands for an absent key, so `.get(k, d)` is `Option.getD`. -/
structure RequestData where
  topic : Option Str := none
  query : Option Str := none
  word_count : Option Int := none

/-- The Python runtime errors the evaluator can raise. -/
inductive PyError where
  | unboundLocalError
deriving DecidableEq

/-- `ComplianceCheckerService.check_request`.  Mirrors the source line by
line: `topic = request_data.get('topic', '') or request_data.get('query', '')`;
the inappropriate-term scan runs only under `if topic:`; the word-count flag
is appended unconditionally; the sensitive-topics check then reads
`topic_lower`, which was only assigned inside `if topic:` — when `topic` is
falsy this raises `UnboundLocalError` (and the flags gathered so far,
including a possible word-count flag, are discarded by the exception). -/
def check_request (rd : RequestData) : Except PyError ComplianceResult :=
  let topic := if (rd.topic.getD []).isEmpty then rd.query.getD [] else rd.topic.getD []
  if topic.isEmpty then
    .error .unboundLocalError
  else
    let topic_lower := lowerStr topic
    let flags := termFlags inappTermMsg topic_lower inappropriate_terms
      ++ (if rd.word_count.getD 0 > 2000 then [wcMsg] else [])
      ++ (if sensitive_topics.any (fun t => isSub t topic_lower) then [sensMsg] else [])
    .ok (mkResult flags)

/-- `ComplianceCheckerService.check_content`: inappropriate-claim scan
(exhaustive, per term), definitive-advice scan (first match breaks),
prescriptive-verb check, all on the lowercased content. -/
def check_content (content : Str) : ComplianceResult :=
  let content_lower := lowerStr content
  let flags := termFlags inappClaimMsg content_lower inappropriate_terms
    ++ firstMatchFlag defAdviceMsg content_lower definitive_patterns
    ++ (if isSub "diagnose".data content_lower || isSub "prescribe".data content_lower
        then [prescriptiveMsg] else [])
  mkResult flags

/-- `ComplianceCheckerService.check_clinical_data`: exhaustive PII scan
(one flag per matching pattern, no IGNORECASE), exhaustive identifier scan
(IGNORECASE, folded into the patterns), then the length check. -/
def check_clinical_data (patient_data : Str) : ComplianceResult :=
  let flags := eachMatchFlag piiMsg patient_data sensitive_patterns
    ++ eachMatchFlag identMsg patient_data identifier_patterns
    ++ (if patient_data.length > 5000 then [longDataMsg] else [])
  mkResult flags

/-- `ComplianceCheckerService.check_clinical_content`: diagnostic scan
(first match breaks), hedging-absence check (on the length of the original
text), treatment scan (first match breaks), on the lowercased content. -/
def check_clinical_content (clinical_summary : Str) : ComplianceResult :=
  let content_lower := lowerStr clinical_summary
  let hedging_present := hedging_terms.any (fun t => isSub t content_lower)
  let flags := firstMatchFlag diagMsg content_lower diagnostic_patterns
    ++ (if !hedging_present && clinical_summary.length > 100 then [hedgeMsg] else [])
    ++ firstMatchFlag treatMsg content_lower treatment_patterns
  mkResult flags

/-! ### The orchestrating route handlers

`app/routers/patient_education.py` and `app/routers/clinical_summaries.py`
wrap one generation step between a pre-check and a post-check.  The
generation collaborator is an external black box, modelled as a function
parameter; the second component of a handler's result counts how many
times that collaborator was invoked.

Both handlers run inside `try: ... except ValueError: 422  except
Exception: 500`.  `HTTPException` is a subclass of `Exception`, so the
`HTTPException(status_code=400, ...)` each handler raises on a failed
pre-check is caught by its own blanket `except Exception` handler and
replaced with a 500 response whose detail is the fixed internal-error
message; the same happens to the `UnboundLocalError` that `check_request`
can raise.  The models below reproduce that control flow. -/

/-- `ReadingLevel` of `app/models/requests.py`. -/
inductive ReadingLevel where
  | elementary | middleSchool | highSchool | college | professional
deriving DecidableEq

/-- `PatientEducationRequest` (validated fields). -/
structure PatientEducationRequest where
  topic : Str
  reading_level : ReadingLevel := .highSchool
  word_count : Int := 300
  include_sources : Bool := true
  patient_age_group : Option Str := none
  language : Str := "english".data
deriving DecidableEq

/-- `ClinicalSummaryRequest` (validated fields). -/
structure ClinicalSummaryRequest where
  patient_data : Str
  summary_type : Str := "general".data
  word_count : Int := 500
  include_recommendations : Bool := true
  focus_areas : Option (List Str) := none
deriving DecidableEq

/-- `request.model_dump()` restricted to the keys `check_request` reads;
the dumped dict has no `query` key. -/
def dumpPE (req : PatientEducationRequest) : RequestData :=
  { topic := some req.topic, query := none, word_count := some req.word_count }

/-- `SourceReference` of `app/models/responses.py` (the float field
`relevance_score` is never read by the guardrail and is left out). -/
structure SourceReference where
  title : Str
  authors : Option (List Str) := none
  journal : Option Str := none
  year : Option Int := none
  doi : Option Str := none
  url : Option Str := none
deriving DecidableEq

/-- `GenerationMetadata` (`generated_at` is an opaque timestamp). -/
structure GenerationMetadata where
  generated_at : Nat
  word_count : Int
  reading_level : ReadingLevel
  model_used : Str
  safety_flags : List Str := []
  requires_review : Bool := true
deriving DecidableEq

/-- `PatientEducationResponse`. -/
structure PatientEducationResponse where
  content : Str
  title : Str
  key_points : List Str
  sources : List SourceReference := []
  metadata : GenerationMetadata
  disclaimer : Str
deriving DecidableEq

/-- `ClinicalSummaryResponse`. -/
structure ClinicalSummaryResponse where
  summary : Str
  key_findings : List Str
  recommendations : Option (List Str) := none
  risk_factors : List Str := []
  follow_up_needed : List Str := []
  metadata : GenerationMetadata
  disclaimer : Str
deriving DecidableEq

/-- What a route handler produces: a body with HTTP 200, or an
`HTTPException` carrying a status code and a detail string. -/
inductive HTTPResult (α : Type) where
  | ok (body : α)
  | httpError (status : Nat) (detail : Str)
deriving DecidableEq

/-- The fixed 500 detail of the patient-education handler. -/
def peInternalMsg : Str := "Internal server error during content generation".data

/-- The fixed 500 detail of the clinical-summary handler. -/
def csInternalMsg : Str := "Internal server error during summary generation".data

/-- The discarded 400 detail of the patient-education handler. -/
def peRejectDetail (reason : Str) : Str :=
  "Request failed compliance check: ".data ++ reason

/-- The discarded 400 detail of the clinical-summary handler. -/
def csRejectDetail (reason : Str) : Str :=
  "Clinical data failed compliance check: ".data ++ reason

/-- The post-check annotation both handlers apply to a non-compliant
generated text: append the check's `reason` to `metadata.safety_flags`
and set `metadata.requires_review = True`. -/
def annotate (md : GenerationMetadata) (reason : Str) : GenerationMetadata :=
  { md with safety_flags := md.safety_flags ++ [reason], requires_review := true }

/-- `generate_patient_education` of `app/routers/patient_education.py`,
over an abstract generation collaborator `gen`; the second component is
the number of times `gen` was invoked. -/
def peRoute (gen : PatientEducationRequest → PatientEducationResponse)
    (req : PatientEducationRequest) :
    HTTPResult PatientEducationResponse × Nat :=
  match check_request (dumpPE req) with
  | .error _ => (.httpError 500 peInternalMsg, 0)
  | .ok cr =>
    if !cr.is_compliant then
      -- HTTPException(400, peRejectDetail cr.reason) is raised, then caught
      -- by the handler's own `except Exception` and replaced by a 500.
      (.httpError 500 peInternalMsg, 0)
    else
      let response := gen req
      let content_compliance := check_content response.content
      if !content_compliance.is_compliant then
        ({ response with metadata := annotate response.metadata content_compliance.reason }
           |> .ok, 1)
      else
        (.ok response, 1)

/-- `generate_clinical_summary` of `app/routers/clinical_summaries.py`,
over an abstract generation collaborator `gen`; the second component is
the number of times `gen` was invoked. -/
def csRoute (gen : ClinicalSummaryRequest → ClinicalSummaryResponse)
    (req : ClinicalSummaryRequest) :
    HTTPResult ClinicalSummaryResponse × Nat :=
  let cr := check_clinical_data req.patient_data
  if !cr.is_compliant then
    -- HTTPException(400, csRejectDetail cr.reason) raised, caught by the
    -- blanket `except Exception`, replaced by a 500.
    (.httpError 500 csInternalMsg, 0)
  else
    let response := gen req
    let content_compliance := check_clinical_content response.summary
    if !content_compliance.is_compliant then
      ({ response with metadata := annotate response.metadata content_compliance.reason }
         |> .ok, 1)
    else
      (.ok response, 1)

/-! ### Helper lemmas -/

theorem joinSemi_eq_intercalate (l : List Str) :
    joinSemi l = List.intercalate "; ".data l := by
  induction l with
  | nil => rfl
  | cons f fs ih =>
    cases fs with
    | nil => simp [joinSemi, List.intercalate, List.intersperse]
    | cons g gs =>
      simp only [joinSemi] at ih ⊢
      rw [ih]
      simp [List.intercalate, List.intersperse]

theorem mkResult_compliant_iff (f : List Str) :
    (mkResult f).is_compliant = true ↔ (mkResult f).flags = [] := by
  simp [mkResult, List.length_eq_zero]

theorem mkResult_reason (f : List Str) :
    (mkResult f).reason = List.intercalate "; ".data (mkResult f).flags := by
  cases f with
  | nil => rfl
  | cons a l => simp [mkResult, joinSemi_eq_intercalate]

theorem firstMatchFlag_cases (msg : Str) (s : Str) (pats : List RE) :
    firstMatchFlag msg s pats = [] ∨ firstMatchFlag msg s pats = [msg] := by
  induction pats with
  | nil => exact Or.inl rfl
  | cons p ps ih =>
    by_cases h : reSearch p s = true
    · exact Or.inr (by simp [firstMatchFlag, h])
    · simpa [firstMatchFlag, h] using ih

theorem firstMatchFlag_of_mem (msg : Str) (s : Str) {pats : List RE}
    (h : ∃ p ∈ pats, reSearch p s = true) :
    firstMatchFlag msg s pats = [msg] := by
  induction pats with
  | nil => simp at h
  | cons q ps ih =>
    by_cases hq : reSearch q s = true
    · simp [firstMatchFlag, hq]
    · obtain ⟨p, hp, hps⟩ := h
      rcases List.mem_cons.mp hp with hp | hp
      · cases hq (hp ▸ hps)
      · simp only [firstMatchFlag, hq, if_false]
        exact ih ⟨p, hp, hps⟩

theorem count_firstMatchFlag_le (m msg : Str) (s : Str) (pats : List RE) :
    List.count m (firstMatchFlag msg s pats) ≤ 1 := by
  rcases firstMatchFlag_cases msg s pats with h | h <;> rw [h]
  · simp
  · simp only [List.count_cons, List.count_nil]
    split <;> simp

theorem mem_firstMatchFlag (m msg : Str) (s : Str) (pats : List RE)
    (h : m ∈ firstMatchFlag msg s pats) : m = msg := by
  rcases firstMatchFlag_cases msg s pats with hc | hc <;> rw [hc] at h <;> simp_all

theorem count_termFlags_eq_zero (mk : Str → Str) (hay m : Str) {terms : List Str}
    (h : ∀ t ∈ terms, mk t ≠ m) :
    List.count m (termFlags mk hay terms) = 0 := by
  induction terms with
  | nil => rfl
  | cons t ts ih =>
    have ht : mk t ≠ m := h t (by simp)
    have hts : ∀ u ∈ ts, mk u ≠ m := fun u hu => h u (by simp [hu])
    by_cases hs : isSub t hay = true <;>
      simp [termFlags, hs, List.count_cons, ht, ih hts]

theorem mem_termFlags (m : Str) (mk : Str → Str) (hay : Str) {terms : List Str}
    (h : m ∈ termFlags mk hay terms) : ∃ t ∈ terms, m = mk t := by
  induction terms with
  | nil => simp [termFlags] at h
  | cons t ts ih =>
    by_cases hs : isSub t hay = true
    · simp only [termFlags, hs, if_true] at h
      rcases List.mem_append.mp h with h | h
      · exact ⟨t, by simp, List.mem_singleton.mp h⟩
      · obtain ⟨u, hu, he⟩ := ih h
        exact ⟨u, by simp [hu], he⟩
    · simp only [termFlags, hs] at h
      obtain ⟨u, hu, he⟩ := ih (by simpa using h)
      exact ⟨u, by simp [hu], he⟩

theorem mem_eachMatchFlag_of (msg : Str) (s : Str) {pats : List RE} {p : RE}
    (hp : p ∈ pats) (hm : reSearch p s = true) :
    msg ∈ eachMatchFlag msg s pats := by
  induction pats with
  | nil => simp at hp
  | cons q ps ih =>
    rcases List.mem_cons.mp hp with hq | hq
    · subst hq
      simp [eachMatchFlag, hm]
    · simp only [eachMatchFlag, List.mem_append]
      exact Or.inr (ih hq)

theorem mem_eachMatchFlag (m msg : Str) (s : Str) (pats : List RE)
    (h : m ∈ eachMatchFlag msg s pats) : m = msg := by
  induction pats with
  | nil => simp [eachMatchFlag] at h
  | cons q ps ih =>
    by_cases hq : reSearch q s = true <;> simp [eachMatchFlag, hq] at h <;> tauto

/-! ### C2 and C4 -/

/-- C2: every evaluator operation returns a `ComplianceResult` with
`is_compliant` equivalent to emptiness of `flags`, and `reason` the
semicolon-joined concatenation of `flags` (so the empty string when
`flags` is empty).  For `check_request` this holds of every result the
method actually returns (it can instead raise, see C4). -/
theorem evaluator_result_invariant :
    (∀ s : Str,
        ((check_content s).is_compliant = true ↔ (check_content s).flags = []) ∧
        (check_content s).reason = List.intercalate "; ".data (check_content s).flags) ∧
    (∀ s : Str,
        ((check_clinical_data s).is_compliant = true ↔ (check_clinical_data s).flags = []) ∧
        (check_clinical_data s).reason
          = List.intercalate "; ".data (check_clinical_data s).flags) ∧
    (∀ s : Str,
        ((check_clinical_content s).is_compliant = true ↔ (check_clinical_content s).flags = []) ∧
        (check_clinical_content s).reason
          = List.intercalate "; ".data (check_clinical_content s).flags) ∧
    (∀ (rd : RequestData) (r : ComplianceResult), check_request rd = .ok r →
        (r.is_compliant = true ↔ r.flags = []) ∧
        r.reason = List.intercalate "; ".data r.flags) := by
  refine ⟨fun s => ⟨mkResult_compliant_iff _, mkResult_reason _⟩,
          fun s => ⟨mkResult_compliant_iff _, mkResult_reason _⟩,
          fun s => ⟨mkResult_compliant_iff _, mkResult_reason _⟩,
          fun rd r h => ?_⟩
  simp only [check_request] at h
  split at h <;> split at h <;>
    first
    | (rw [Except.ok.injEq] at h; subst h;
       exact ⟨mkResult_compliant_iff _, mkResult_reason _⟩)
    | simp at h

/-- C4: the claim that no evaluator raises on empty input is wrong for
`check_request`: with `topic` and `query` empty or absent, `topic_lower`
is never assigned and the sensitive-topics check raises
`UnboundLocalError`.  The three text evaluators do degrade to the
compliant no-flags result on empty text. -/
theorem empty_input_behavior :
    check_request { topic := none, query := none, word_count := none }
      = .error .unboundLocalError ∧
    check_request { topic := some [], query := some [], word_count := some 0 }
      = .error .unboundLocalError ∧
    check_content [] = { is_compliant := true, reason := [], flags := [] } ∧
    check_clinical_data [] = { is_compliant := true, reason := [], flags := [] } ∧
    check_clinical_content [] = { is_compliant := true, reason := [], flags := [] } := by
  refine ⟨rfl, rfl, ?_, ?_, ?_⟩ <;> decide

/-! ### Concrete fixtures for the route-level claims -/

/-- A stub generation collaborator for the patient-education flow. -/
def peGenStub : PatientEducationRequest → PatientEducationResponse := fun _ =>
  { content := "Stay informed and talk with your care team.".data
    title := "Draft".data
    key_points := []
    metadata := { generated_at := 0, word_count := 8, reading_level := .highSchool,
                  model_used := "mock".data }
    disclaimer := "Draft only.".data }

/-- A stub generator whose output trips the `check_content` post-check and
that reports generator-set metadata (a pre-existing flag, review not yet
required). -/
def peGenFlagged : PatientEducationRequest → PatientEducationResponse := fun _ =>
  { content := "You must rest".data
    title := "Draft".data
    key_points := []
    metadata := { generated_at := 0, word_count := 3, reading_level := .highSchool,
                  model_used := "mock".data, safety_flags := ["model flag".data],
                  requires_review := false }
    disclaimer := "Draft only.".data }

/-- A stub generator whose output trips the `check_clinical_content`
post-check. -/
def csGenFlagged : ClinicalSummaryRequest → ClinicalSummaryResponse := fun _ =>
  { summary := "Patient requires monitoring".data
    key_findings := []
    metadata := { generated_at := 0, word_count := 3, reading_level := .professional,
                  model_used := "mock".data, requires_review := false }
    disclaimer := "Draft only.".data }

/-- A request whose topic is on the sensitive-topic list and violates no
other rule. -/
def selfHarmReq : PatientEducationRequest := { topic := "self-harm".data }

/-- The spec's pre-check-failure example, `word_count = 5000` (the handler
is modelled as called directly, as the spec's test property does; the
pydantic bound on the field is bypassed). -/
def wc5000Req : PatientEducationRequest :=
  { topic := "diabetes".data, word_count := 5000 }

/-- An ordinary compliant patient-education request. -/
def eduReq : PatientEducationRequest := { topic := "diabetes".data }

/-- An ordinary compliant clinical-summary request. -/
def csReq : ClinicalSummaryRequest :=
  { patient_data := "stable vitals overnight".data }

/-! ### C1, C3 and C5: the orchestrator's dispositions -/

/-- C1: when the pre-check is non-compliant the handler does return a
rejection and the generation collaborator is never invoked (count 0) — but
the rejection is not the claimed client error carrying the joined reason:
the `HTTPException(400, ...)` raised inside the `try` block is caught by
the handler's own blanket `except Exception` and replaced by a 500 whose
detail is the fixed internal-error message, for both flows; shown also at
the spec's concrete example `word_count = 5000`. -/
theorem precheck_failure_is_500_and_skips_generation :
    (∀ (req : PatientEducationRequest)
        (gen : PatientEducationRequest → PatientEducationResponse)
        (cr : ComplianceResult),
        check_request (dumpPE req) = .ok cr → cr.is_compliant = false →
        peRoute gen req = (.httpError 500 peInternalMsg, 0)) ∧
    (∀ (req : ClinicalSummaryRequest)
        (gen : ClinicalSummaryRequest → ClinicalSummaryResponse),
        (check_clinical_data req.patient_data).is_compliant = false →
        csRoute gen req = (.httpError 500 csInternalMsg, 0)) ∧
    peRoute peGenStub wc5000Req = (.httpError 500 peInternalMsg, 0) := by
  refine ⟨fun req gen cr h hc => ?_, fun req gen hc => ?_, by decide⟩
  · simp [peRoute, h, hc]
  · simp [csRoute, hc]

/-- C3: when the pre-check passes and the post-check on the generated text
is non-compliant, the handler does not reject: it returns the generated
response with the post-check's `reason` appended to
`metadata.safety_flags`, `requires_review` set to `true`, generator-set
flags preserved, and every other response field unchanged; shown also at
concrete flagged generations for both flows. -/
theorem postcheck_failure_flags_and_returns :
    (∀ (req : PatientEducationRequest)
        (gen : PatientEducationRequest → PatientEducationResponse)
        (cr : ComplianceResult),
        check_request (dumpPE req) = .ok cr → cr.is_compliant = true →
        (check_content (gen req).content).is_compliant = false →
        peRoute gen req =
          (.ok { gen req with metadata :=
              { (gen req).metadata with
                safety_flags := (gen req).metadata.safety_flags
                  ++ [(check_content (gen req).content).reason]
                requires_review := true } }, 1)) ∧
    (∀ (req : ClinicalSummaryRequest)
        (gen : ClinicalSummaryRequest → ClinicalSummaryResponse),
        (check_clinical_data req.patient_data).is_compliant = true →
        (check_clinical_content (gen req).summary).is_compliant = false →
        csRoute gen req =
          (.ok { gen req with metadata :=
              { (gen req).metadata with
                safety_flags := (gen req).metadata.safety_flags
                  ++ [(check_clinical_content (gen req).summary).reason]
                requires_review := true } }, 1)) ∧
    peRoute peGenFlagged eduReq =
      (.ok { peGenFlagged eduReq with metadata :=
          { (peGenFlagged eduReq).metadata with
            safety_flags := ["model flag".data, defAdviceMsg]
            requires_review := true } }, 1) ∧
    csRoute csGenFlagged csReq =
      (.ok { csGenFlagged csReq with metadata :=
          { (csGenFlagged csReq).metadata with
            safety_flags := [treatMsg]
            requires_review := true } }, 1) := by
  refine ⟨fun req gen cr h hc hp => ?_, fun req gen hc hp => ?_, by decide, by decide⟩
  · simp [peRoute, h, hc, hp, annotate]
  · simp [csRoute, hc, hp, annotate]

/-- C5 counterexample: for the request with topic `self-harm` (no other
rule violated) `check_request` raises exactly the sensitive-topic flag,
yet the orchestrator does not proceed to generation: the collaborator is
invoked zero times and the handler returns an error. -/
theorem sensitive_topic_counterexample :
    check_request (dumpPE selfHarmReq) = .ok (mkResult [sensMsg]) ∧
    (peRoute peGenStub selfHarmReq).2 = 0 ∧
    (peRoute peGenStub selfHarmReq).1 = .httpError 500 peInternalMsg :=
  ⟨rfl, rfl, rfl⟩

/-- C5 (amended): a topic matching the sensitive-topic list, violating no
other rule, makes `check_request` return exactly the sensitive-topic flag;
that result is non-compliant, so the orchestrator rejects the request and
never invokes the generation collaborator (rather than proceeding). -/
theorem sensitive_topic_flags_and_rejects :
    ∀ (req : PatientEducationRequest)
      (gen : PatientEducationRequest → PatientEducationResponse),
      req.topic ≠ [] →
      termFlags inappTermMsg (lowerStr req.topic) inappropriate_terms = [] →
      req.word_count ≤ 2000 →
      sensitive_topics.any (fun t => isSub t (lowerStr req.topic)) = true →
      check_request (dumpPE req) = .ok (mkResult [sensMsg]) ∧
      (mkResult [sensMsg]).is_compliant = false ∧
      peRoute gen req = (.httpError 500 peInternalMsg, 0) := by
  intro req gen htop hterm hwc hsens
  have hE : req.topic.isEmpty = false := by
    cases h : req.topic with
    | nil => exact absurd h htop
    | cons a l => rfl
  have hcheck : check_request (dumpPE req) = .ok (mkResult [sensMsg]) := by
    simp only [check_request, dumpPE, Option.getD_some, hE, Bool.false_eq_true,
      if_false, hterm, hsens, if_true, List.nil_append]
    rw [if_neg (by omega : ¬req.word_count > 2000)]
    rfl
  refine ⟨hcheck, by decide, ?_⟩
  simp [peRoute, hcheck, mkResult]

/-- C5 witness: the amended statement at the concrete `self-harm` request
and the stub generator. -/
theorem sensitive_topic_flags_and_rejects_witness :
    check_request (dumpPE selfHarmReq) = .ok (mkResult [sensMsg]) ∧
    (mkResult [sensMsg]).is_compliant = false ∧
    peRoute peGenStub selfHarmReq = (.httpError 500 peInternalMsg, 0) :=
  sensitive_topic_flags_and_rejects selfHarmReq peGenStub
    (by decide) (by decide) (by decide) (by decide)

/-! ### C6, C7 and C8: the evaluator's pattern categories -/

theorem mkResult_noncompliant {f : List Str} (h : f ≠ []) :
    (mkResult f).is_compliant = false := by
  cases f with
  | nil => exact absurd rfl h
  | cons a l => rfl

theorem check_clinical_data_flags (s : Str) :
    (check_clinical_data s).flags =
      eachMatchFlag piiMsg s sensitive_patterns
        ++ eachMatchFlag identMsg s identifier_patterns
        ++ (if s.length > 5000 then [longDataMsg] else []) := rfl

theorem check_content_flags (s : Str) :
    (check_content s).flags =
      termFlags inappClaimMsg (lowerStr s) inappropriate_terms
        ++ firstMatchFlag defAdviceMsg (lowerStr s) definitive_patterns
        ++ (if isSub "diagnose".data (lowerStr s) || isSub "prescribe".data (lowerStr s)
            then [prescriptiveMsg] else []) := rfl

theorem check_clinical_content_flags (s : Str) :
    (check_clinical_content s).flags =
      firstMatchFlag diagMsg (lowerStr s) diagnostic_patterns
        ++ (if !(hedging_terms.any fun t => isSub t (lowerStr s)) && s.length > 100
            then [hedgeMsg] else [])
        ++ firstMatchFlag treatMsg (lowerStr s) treatment_patterns := rfl

/-- C6: any PII pattern match makes `check_clinical_data` non-compliant
with the PII message among its flags; the PII scan is exhaustive, not
short-circuiting (an SSN-pattern match and an email-pattern match yield
two PII flag entries, not one); and the concrete input
`Patient SSN: 123-45-6789` is flagged for PII. -/
theorem pii_detection_exhaustive :
    (∀ (s : Str) (p : RE), p ∈ sensitive_patterns → reSearch p s = true →
        (check_clinical_data s).is_compliant = false ∧
        piiMsg ∈ (check_clinical_data s).flags) ∧
    (∀ s : Str, reSearch ssnPat s = true → reSearch emailPat s = true →
        2 ≤ List.count piiMsg (check_clinical_data s).flags) ∧
    ((check_clinical_data "Patient SSN: 123-45-6789".data).is_compliant = false ∧
      piiMsg ∈ (check_clinical_data "Patient SSN: 123-45-6789".data).flags) := by
  refine ⟨fun s p hp hm => ?_, fun s h1 h3 => ?_, by decide, by decide⟩
  · have hflags : piiMsg ∈ (check_clinical_data s).flags := by
      rw [check_clinical_data_flags]
      exact List.mem_append.mpr (Or.inl (List.mem_append.mpr
        (Or.inl (mem_eachMatchFlag_of piiMsg s hp hm))))
    have hiff : (check_clinical_data s).is_compliant = true
        ↔ (check_clinical_data s).flags = [] := mkResult_compliant_iff _
    have hne : ¬(check_clinical_data s).is_compliant = true :=
      fun hc => List.ne_nil_of_mem hflags (hiff.mp hc)
    exact ⟨by simpa using hne, hflags⟩
  · have hF : 2 ≤ List.count piiMsg (eachMatchFlag piiMsg s sensitive_patterns) := by
      simp only [sensitive_patterns, eachMatchFlag, h1, h3, if_true]
      by_cases h2 : reSearch ccPat s = true <;>
        simp [h2, List.count_append, List.count_cons]
    rw [check_clinical_data_flags, List.count_append, List.count_append]
    omega

/-- C7: `check_content` adds at most one definitive-advice flag however
many definitive patterns match (the loop breaks at the first match), and
the text `You must take this medication immediately` receives exactly the
one definitive-advice flag. -/
theorem definitive_advice_single_flag :
    (∀ s : Str, List.count defAdviceMsg (check_content s).flags ≤ 1) ∧
    (check_content "You must take this medication immediately".data).flags
      = [defAdviceMsg] := by
  refine ⟨fun s => ?_, by decide⟩
  rw [check_content_flags, List.count_append, List.count_append]
  have h1 : List.count defAdviceMsg
      (termFlags inappClaimMsg (lowerStr s) inappropriate_terms) = 0 :=
    count_termFlags_eq_zero _ _ _ (by decide)
  have h2 : List.count defAdviceMsg
      (firstMatchFlag defAdviceMsg (lowerStr s) definitive_patterns) ≤ 1 :=
    count_firstMatchFlag_le _ _ _ _
  have h3 : List.count defAdviceMsg
      (if isSub "diagnose".data (lowerStr s) || isSub "prescribe".data (lowerStr s)
       then [prescriptiveMsg] else []) = 0 := by
    split
    · simp [List.count_cons]
      decide
    · rfl
  omega

/-- A clinical summary longer than 100 characters with no hedging term. -/
def longUnhedged : Str :=
  ("The patient was seen in clinic today and the team discussed medication "
    ++ "options at length with family members present.").data

/-- A clinical summary longer than 100 characters containing `likely`. -/
def longHedged : Str :=
  ("The imaging findings are likely related to prior surgery and the team "
    ++ "will continue to monitor the patient closely over time.").data

/-- C8: `check_clinical_content` adds the missing-hedging flag exactly
when the text exceeds 100 characters and its lowercasing contains none of
the fixed hedging terms; texts of at most 100 characters, and texts with a
hedging term, never receive it — shown also at two concrete summaries. -/
theorem hedging_flag_iff :
    (∀ s : Str,
        hedgeMsg ∈ (check_clinical_content s).flags ↔
          (100 < s.length ∧ (hedging_terms.any fun t => isSub t (lowerStr s)) = false)) ∧
    hedgeMsg ∈ (check_clinical_content longUnhedged).flags ∧
    hedgeMsg ∉ (check_clinical_content longHedged).flags := by
  refine ⟨fun s => ?_, by decide, by decide⟩
  rw [check_clinical_content_flags]
  simp only [List.mem_append]
  constructor
  · rintro ((h | h) | h)
    · exact absurd (mem_firstMatchFlag _ _ _ _ h) (by decide)
    · by_cases hc : (!(hedging_terms.any fun t => isSub t (lowerStr s))
          && s.length > 100) = true
      · rw [Bool.and_eq_true] at hc
        obtain ⟨ha, hl⟩ := hc
        exact ⟨by simpa using of_decide_eq_true hl, by simpa using ha⟩
      · rw [if_neg hc] at h
        cases h
    · exact absurd (mem_firstMatchFlag _ _ _ _ h) (by decide)
  · rintro ⟨hlen, hany⟩
    refine Or.inl (Or.inr ?_)
    rw [if_pos (by simp [hany, hlen])]
    exact List.mem_singleton.mpr rfl

/-! ### C10: the `requires`-directive machinery

Completeness of the matcher for the pattern `\brequires\b(?!\s+review)`
at a structurally given occurrence. -/

/-- The previous-character context after reading `a` starting from `prev`. -/
def ctxAfter (prev : Option Char) : Str → Option Char
  | [] => prev
  | c :: cs => ctxAfter (some c) cs

/-- The character before an occurrence (last of `a`), when any, is not a
word character. -/
def boundaryBefore (a : Str) : Bool :=
  match a.getLast? with
  | none => true
  | some c => !isWordChar c

/-- The character after an occurrence (head of `b`), when any, is not a
word character. -/
def boundaryAfter (b : Str) : Bool :=
  match b with
  | [] => true
  | c :: _ => !isWordChar c

/-- The occurrence is immediately followed by one-or-more whitespace
characters and then the letters of `review` (the source's lookahead
`\s+review`). -/
def followsWsReview (b : Str) : Bool :=
  match b with
  | [] => false
  | c :: cs => isWsChar c && startsWith "review".data (cs.dropWhile isWsChar)

theorem catMap_nil (f : α → List β) : catMap f [] = [] := rfl

theorem catMap_cons (f : α → List β) (a : α) (l : List α) :
    catMap f (a :: l) = f a ++ catMap f l := rfl

theorem mem_catMap {f : α → List β} {l : List α} {b : β} :
    b ∈ catMap f l ↔ ∃ a ∈ l, b ∈ f a := by
  induction l with
  | nil => simp [catMap]
  | cons a as ih => simp [catMap_cons, List.mem_append, ih]

theorem catMap_ne_nil {f : α → List β} {l : List α} (h : catMap f l ≠ []) :
    ∃ a ∈ l, f a ≠ [] := by
  induction l with
  | nil => exact absurd rfl h
  | cons a as ih =>
    by_cases hfa : f a = []
    · rw [catMap_cons, hfa, List.nil_append] at h
      obtain ⟨x, hx, hfx⟩ := ih h
      exact ⟨x, List.mem_cons_of_mem a hx, hfx⟩
    · exact ⟨a, List.mem_cons_self a as, hfa⟩

theorem seq_ne_nil {A B : RE} {prev : Option Char} {s : Str}
    (h : reMatch (.seq A B) prev s ≠ []) :
    ∃ st ∈ reMatch A prev s, reMatch B st.1 st.2 ≠ [] := by
  rw [reMatch] at h
  exact catMap_ne_nil h

theorem clsRun_sound {p : Char → Bool} :
    ∀ {s : Str} {prev : Option Char} {st : Option Char × Str},
      st ∈ clsRun p prev s → ∃ pre, s = pre ++ st.2 ∧ pre.all p = true := by
  intro s
  induction s with
  | nil =>
    intro prev st h
    rw [clsRun, List.mem_singleton] at h
    exact ⟨[], by simp [h]⟩
  | cons c cs ih =>
    intro prev st h
    rw [clsRun] at h
    rcases List.mem_cons.mp h with h | h
    · exact ⟨[], by simp [h]⟩
    · by_cases hp : p c = true
      · rw [if_pos hp] at h
        obtain ⟨pre, hpre, hall⟩ := ih h
        exact ⟨c :: pre, by simp [hpre], by simp [List.all_cons, hp, hall]⟩
      · rw [if_neg hp] at h
        cases h

theorem startsWith_self_append (t u : Str) : startsWith t (t ++ u) = true := by
  induction t with
  | nil => rfl
  | cons c cs ih => simp [startsWith, ih]

theorem litMatch (t : Str) :
    ∀ (prev : Option Char) (s : Str),
      reMatch (lit t) prev s
        = if startsWith t s then [(ctxAfter prev t, s.drop t.length)] else [] := by
  induction t with
  | nil =>
    intro prev s
    simp [lit, reSeq, reMatch, startsWith, ctxAfter]
  | cons c cs ih =>
    intro prev s
    have hlit : lit (c :: cs) = .seq (.cls fun x => x = c) (lit cs) := rfl
    rw [hlit]
    cases s with
    | nil => simp [reMatch, startsWith, catMap_nil]
    | cons d ds =>
      by_cases hdc : d = c
      · subst hdc
        rw [reMatch]
        have hcls : reMatch (.cls fun x => x = d) prev (d :: ds)
            = [(some d, ds)] := by simp [reMatch]
        rw [hcls, catMap_cons, catMap_nil, List.append_nil, ih]
        simp [startsWith, ctxAfter]
      · rw [reMatch]
        have hcls : reMatch (.cls fun x => x = c) prev (d :: ds) = [] := by
          simp [reMatch, hdc]
        rw [hcls, catMap_nil]
        have hcd : c ≠ d := fun h => hdc h.symm
        have : startsWith (c :: cs) (d :: ds) = false := by
          simp [startsWith, hcd]
        rw [this]
        simp

theorem dropWhile_all_append {p : Char → Bool} {pre : Str} (rest : Str)
    (h : pre.all p = true) :
    List.dropWhile p (pre ++ rest) = List.dropWhile p rest := by
  induction pre with
  | nil => rfl
  | cons a l ih =>
    rw [List.all_cons, Bool.and_eq_true] at h
    simp [List.dropWhile, h.1, ih h.2]

theorem wsReview_sound (prev : Option Char) (b : Str)
    (h : reMatch wsReviewPat prev b ≠ []) : followsWsReview b = true := by
  obtain ⟨st, hst, hrev⟩ := seq_ne_nil h
  obtain ⟨st0, hst0, hstar⟩ : ∃ st0 ∈ reMatch (.cls isWsChar) prev b,
      st ∈ reMatch (.starCls isWsChar) st0.1 st0.2 := by
    rw [plusC, reMatch] at hst
    exact mem_catMap.mp hst
  obtain ⟨c, cs, hb, hwc, heq⟩ : ∃ c cs, b = c :: cs ∧ isWsChar c = true ∧
      reMatch (.cls isWsChar) prev b = [(some c, cs)] := by
    cases b with
    | nil => rw [reMatch] at hst0; cases hst0
    | cons c cs =>
      by_cases hp : isWsChar c = true
      · exact ⟨c, cs, rfl, hp, by simp [reMatch, hp]⟩
      · rw [reMatch, if_neg (by simpa using hp)] at hst0
        cases hst0
  rw [heq, List.mem_singleton] at hst0
  subst hst0
  rw [reMatch] at hstar
  obtain ⟨pre, hpre, hall⟩ := clsRun_sound hstar
  rw [litMatch] at hrev
  have hsw : startsWith "review".data st.2 = true := by
    by_cases hs : startsWith "review".data st.2 = true
    · exact hs
    · rw [if_neg (by simpa using hs)] at hrev
      exact absurd rfl hrev
  obtain ⟨d, ds, hst2, hdr⟩ : ∃ d ds, st.2 = d :: ds ∧ d = 'r' := by
    cases h2 : st.2 with
    | nil => rw [h2, startsWith] at hsw; cases hsw
    | cons d ds =>
      rw [h2] at hsw
      have : ('r' = d) ∧ startsWith "eview".data ds = true := by
        simpa [startsWith] using hsw
      exact ⟨d, ds, rfl, this.1.symm⟩
  subst hdr
  have hpre2 : cs = pre ++ st.2 := hpre
  rw [hb]
  simp only [followsWsReview]
  rw [hpre2, dropWhile_all_append st.2 hall, hst2,
    List.dropWhile_cons, if_neg (by decide : ¬isWsChar 'r' = true)]
  rw [hst2] at hsw
  simp [hwc, hsw]

theorem ctxAfter_eq (a : Str) : ∀ prev, ctxAfter prev a = a.getLast?.or prev := by
  induction a with
  | nil => intro prev; rfl
  | cons c cs ih =>
    intro prev
    cases cs with
    | nil => rfl
    | cons d ds =>
      rw [ctxAfter, ih (some c), List.getLast?_cons_cons]
      cases h : (d :: ds).getLast? with
      | none => simp at h
      | some e => rfl

theorem prevIsWord_ctxAfter {a : Str} (h : boundaryBefore a = true) :
    prevIsWord (ctxAfter none a) = false := by
  rw [ctxAfter_eq, Option.or_none]
  unfold boundaryBefore at h
  cases hl : a.getLast? with
  | none => rfl
  | some c =>
    rw [hl] at h
    simp only [prevIsWord]
    simpa using h

theorem searchComplete (re : RE) :
    ∀ (a : Str) (prev : Option Char) (mid : Str),
      reMatch re (ctxAfter prev a) mid ≠ [] →
      reSearchAux re prev (a ++ mid) = true := by
  intro a
  induction a with
  | nil =>
    intro prev mid h
    rw [ctxAfter] at h
    cases mid with
    | nil =>
      rw [List.nil_append, reSearchAux]
      simpa [List.isEmpty_iff] using h
    | cons c cs =>
      rw [List.nil_append, reSearchAux, Bool.or_eq_true]
      exact Or.inl (by simpa [List.isEmpty_iff] using h)
  | cons c cs ih =>
    intro prev mid h
    rw [ctxAfter] at h
    rw [List.cons_append, reSearchAux, Bool.or_eq_true]
    exact Or.inr (ih (some c) mid h)

theorem treatReq_match (prev : Option Char) (b : Str)
    (hprev : prevIsWord prev = false)
    (hb : boundaryAfter b = true)
    (hws : followsWsReview b = false) :
    reMatch treatReqPat prev ("requires".data ++ b) ≠ [] := by
  have hb1 : boundaryAt prev ("requires".data ++ b) = true := by
    have hh : headIsWord ("requires".data ++ b) = true := rfl
    rw [boundaryAt, hprev, hh]
    rfl
  have hlit : reMatch (lit "requires".data) prev ("requires".data ++ b)
      = [(some 's', b)] := by
    rw [litMatch, if_pos (startsWith_self_append _ _)]
    have hctx : ctxAfter prev "requires".data = some 's' := rfl
    rw [hctx, List.drop_left]
  have hb2 : boundaryAt (some 's') b = true := by
    cases b with
    | nil => rfl
    | cons c cs =>
      have hwc : isWordChar c = false := by
        simpa [boundaryAfter] using hb
      have h1 : prevIsWord (some 's') = true := rfl
      have h2 : headIsWord (c :: cs) = false := hwc
      rw [boundaryAt, h1, h2]
      rfl
  have hnla : (reMatch wsReviewPat (some 's') b).isEmpty = true := by
    by_cases hne : reMatch wsReviewPat (some 's') b = []
    · simp [hne]
    · exact absurd (wsReview_sound _ _ hne) (by simp [hws])
  show reMatch (.seq .wordB (.seq (lit "requires".data)
      (.seq .wordB (.seq (.nla wsReviewPat) .eps)))) prev ("requires".data ++ b) ≠ []
  rw [reMatch]
  conv_lhs => rw [reMatch, if_pos hb1]
  rw [catMap_cons, catMap_nil, List.append_nil, reMatch, hlit,
    catMap_cons, catMap_nil, List.append_nil, reMatch]
  conv_lhs => rw [reMatch, if_pos hb2]
  rw [catMap_cons, catMap_nil, List.append_nil, reMatch]
  conv_lhs => rw [reMatch, if_pos hnla]
  rw [catMap_cons, catMap_nil, List.append_nil, reMatch]
  simp

/-- C10: `check_clinical_content` adds the definitive-treatment flag for
every text whose lowercasing contains the word `requires` (between word
boundaries) not immediately followed by whitespace and `review`, while the
exact phrase `requires review` alone does not trigger it (shown at the
concrete texts `The patient requires monitoring` and
`The patient requires review`). -/
theorem requires_directive_flag :
    (∀ (s a b : Str),
        lowerStr s = a ++ "requires".data ++ b →
        boundaryBefore a = true →
        boundaryAfter b = true →
        followsWsReview b = false →
        treatMsg ∈ (check_clinical_content s).flags) ∧
    treatMsg ∈ (check_clinical_content "The patient requires monitoring".data).flags ∧
    treatMsg ∉ (check_clinical_content "The patient requires review".data).flags := by
  refine ⟨fun s a b hsplit hba hbb hws => ?_, by decide, by decide⟩
  have hmatch : reMatch treatReqPat (ctxAfter none a) ("requires".data ++ b) ≠ [] :=
    treatReq_match _ b (prevIsWord_ctxAfter hba) hbb hws
  have hsearch : reSearch treatReqPat (lowerStr s) = true := by
    rw [reSearch, hsplit, List.append_assoc]
    exact searchComplete _ a none _ hmatch
  have hflag : firstMatchFlag treatMsg (lowerStr s) treatment_patterns = [treatMsg] :=
    firstMatchFlag_of_mem _ _ ⟨treatReqPat, by simp [treatment_patterns], hsearch⟩
  rw [check_clinical_content_flags]
  exact List.mem_append.mpr (Or.inr (by simp [hflag]))

/-! ### C9: case-insensitivity machinery

The patterns `check_clinical_data` applies to the raw text are closed
under lowercasing of their character classes, so searching the lowercased
text gives the same verdict; the other evaluators lowercase before
matching. -/

theorem lowerStr_nil : lowerStr [] = [] := rfl

theorem lowerStr_cons (c : Char) (cs : Str) :
    lowerStr (c :: cs) = lowerChar c :: lowerStr cs := rfl

theorem isEmpty_lowerStr (l : Str) : (lowerStr l).isEmpty = l.isEmpty := by
  cases l <;> rfl

theorem length_lowerStr (l : Str) : (lowerStr l).length = l.length := by
  simp [lowerStr]

/-- A character class unchanged by lowercasing its argument. -/
def ClsLower (p : Char → Bool) : Prop := ∀ c, p (lowerChar c) = p c

/-- Every class of the pattern is unchanged by lowercasing. -/
def REClosed : RE → Prop
  | .eps => True
  | .cls p => ClsLower p
  | .seq a b => REClosed a ∧ REClosed b
  | .alt a b => REClosed a ∧ REClosed b
  | .starCls p => ClsLower p
  | .wordB => True
  | .nla a => REClosed a

/-- Lowercase a matcher state. -/
def lowerState (st : Option Char × Str) : Option Char × Str :=
  (st.1.map lowerChar, lowerStr st.2)

theorem clsLower_isWordChar : ClsLower isWordChar :=
  lowerChar_invariant _ (by decide)

theorem prevIsWord_map (prev : Option Char) :
    prevIsWord (prev.map lowerChar) = prevIsWord prev := by
  cases prev with
  | none => rfl
  | some c =>
    show isWordChar (lowerChar c) = isWordChar c
    exact clsLower_isWordChar c

theorem headIsWord_lower (s : Str) : headIsWord (lowerStr s) = headIsWord s := by
  cases s with
  | nil => rfl
  | cons c cs =>
    show isWordChar (lowerChar c) = isWordChar c
    exact clsLower_isWordChar c

theorem boundaryAt_lower (prev : Option Char) (s : Str) :
    boundaryAt (prev.map lowerChar) (lowerStr s) = boundaryAt prev s := by
  rw [boundaryAt, boundaryAt, prevIsWord_map, headIsWord_lower]

theorem isEmpty_map (f : α → β) (l : List α) : (l.map f).isEmpty = l.isEmpty := by
  cases l <;> rfl

theorem clsRun_lower {p : Char → Bool} (hp : ClsLower p) :
    ∀ (s : Str) (prev : Option Char),
      clsRun p (prev.map lowerChar) (lowerStr s)
        = (clsRun p prev s).map lowerState := by
  intro s
  induction s with
  | nil => intro prev; rfl
  | cons c cs ih =>
    intro prev
    rw [lowerStr_cons, clsRun, clsRun, List.map_cons]
    by_cases hc : p c = true
    · rw [if_pos (by rw [hp c]; exact hc), if_pos hc]
      have := ih (some c)
      rw [show (some c).map lowerChar = some (lowerChar c) from rfl] at this
      rw [this]
      rfl
    · rw [if_neg (by rw [hp c]; exact hc), if_neg hc]
      rfl

theorem reMatch_lower : ∀ (re : RE), REClosed re →
    ∀ (prev : Option Char) (s : Str),
      reMatch re (prev.map lowerChar) (lowerStr s)
        = (reMatch re prev s).map lowerState := by
  intro re
  induction re with
  | eps => intro _ prev s; rfl
  | cls p =>
    intro hp prev s
    cases s with
    | nil => rfl
    | cons c cs =>
      rw [lowerStr_cons, reMatch, reMatch]
      by_cases hc : p c = true
      · rw [if_pos (by rw [hp c]; exact hc), if_pos hc]
        rfl
      · rw [if_neg (by rw [hp c]; exact hc), if_neg hc]
        rfl
  | seq a b iha ihb =>
    intro h prev s
    obtain ⟨ha, hb⟩ := h
    rw [reMatch, reMatch, iha ha]
    have key : ∀ l : List (Option Char × Str),
        catMap (fun st => reMatch b st.1 st.2) (l.map lowerState)
          = (catMap (fun st => reMatch b st.1 st.2) l).map lowerState := by
      intro l
      induction l with
      | nil => rfl
      | cons x xs ihl =>
        rw [List.map_cons, catMap_cons, catMap_cons, List.map_append, ihl]
        have hx : reMatch b (lowerState x).1 (lowerState x).2
            = (reMatch b x.1 x.2).map lowerState := ihb hb x.1 x.2
        rw [hx]
    exact key _
  | alt a b iha ihb =>
    intro h prev s
    obtain ⟨ha, hb⟩ := h
    rw [reMatch, reMatch, List.map_append, iha ha, ihb hb]
  | starCls p =>
    intro hp prev s
    rw [reMatch, reMatch]
    exact clsRun_lower hp s prev
  | wordB =>
    intro _ prev s
    rw [reMatch, reMatch, boundaryAt_lower]
    by_cases hb : boundaryAt prev s = true
    · rw [if_pos hb, if_pos hb]; rfl
    · rw [if_neg hb, if_neg hb]; rfl
  | nla a iha =>
    intro h prev s
    rw [reMatch, reMatch, iha h, isEmpty_map]
    by_cases hE : (reMatch a prev s).isEmpty = true
    · rw [if_pos hE, if_pos hE]; rfl
    · rw [if_neg hE, if_neg hE]; rfl

theorem reSearchAux_lower {re : RE} (h : REClosed re) :
    ∀ (s : Str) (prev : Option Char),
      reSearchAux re (prev.map lowerChar) (lowerStr s) = reSearchAux re prev s := by
  intro s
  induction s with
  | nil =>
    intro prev
    rw [lowerStr_nil, reSearchAux, reSearchAux]
    have h1 := reMatch_lower re h prev []
    rw [lowerStr_nil] at h1
    rw [h1, isEmpty_map]
  | cons c cs ih =>
    intro prev
    rw [lowerStr_cons, reSearchAux, reSearchAux]
    have h1 := reMatch_lower re h prev (c :: cs)
    rw [lowerStr_cons] at h1
    rw [h1, isEmpty_map]
    have h2 := ih (some c)
    rw [show (some c).map lowerChar = some (lowerChar c) from rfl] at h2
    rw [h2]

theorem reSearch_lower {re : RE} (h : REClosed re) (s : Str) :
    reSearch re (lowerStr s) = reSearch re s := by
  have h1 := reSearchAux_lower h s none
  rw [show (none : Option Char).map lowerChar = none from rfl] at h1
  exact h1

theorem clsLower_isDigitChar : ClsLower isDigitChar :=
  lowerChar_invariant _ (by decide)

theorem clsLower_isWsChar : ClsLower isWsChar :=
  lowerChar_invariant _ (by decide)

theorem clsLower_dashC : ClsLower dashC :=
  lowerChar_invariant _ (by decide)

theorem clsLower_ccSepC : ClsLower ccSepC :=
  lowerChar_invariant _ (by decide)

theorem clsLower_atC : ClsLower atC :=
  lowerChar_invariant _ (by decide)

theorem clsLower_dotC : ClsLower dotC :=
  lowerChar_invariant _ (by decide)

theorem clsLower_colonC : ClsLower colonC :=
  lowerChar_invariant _ (by decide)

theorem clsLower_emailLocalC : ClsLower emailLocalC :=
  lowerChar_invariant _ (by decide)

theorem clsLower_emailDomC : ClsLower emailDomC :=
  lowerChar_invariant _ (by decide)

theorem clsLower_emailTldC : ClsLower emailTldC :=
  lowerChar_invariant _ (by decide)

theorem clsLower_dobSepC : ClsLower dobSepC :=
  lowerChar_invariant _ (by decide)

theorem clsLower_phoneSepC : ClsLower phoneSepC :=
  lowerChar_invariant _ (by decide)

theorem clsLower_ci (a : Char) : ClsLower (fun x => decide (lowerChar x = a)) := by
  intro c
  simp [lowerChar_idem]

theorem REClosed_reSeq {l : List RE} (h : ∀ r ∈ l, REClosed r) :
    REClosed (reSeq l) := by
  induction l with
  | nil => trivial
  | cons r rs ih =>
    exact ⟨h r (List.mem_cons_self r rs),
           ih fun x hx => h x (List.mem_cons_of_mem r hx)⟩

theorem REClosed_reps {p : Char → Bool} (hp : ClsLower p) (n : Nat) :
    REClosed (reps n p) :=
  REClosed_reSeq fun r hr => by
    rw [List.eq_of_mem_replicate hr]
    exact hp

theorem REClosed_plusC {p : Char → Bool} (hp : ClsLower p) : REClosed (plusC p) :=
  ⟨hp, hp⟩

theorem REClosed_optC {p : Char → Bool} (hp : ClsLower p) : REClosed (optC p) :=
  ⟨hp, trivial⟩

theorem REClosed_litCI (t : Str) : REClosed (litCI t) :=
  REClosed_reSeq fun r hr => by
    obtain ⟨c, _, rfl⟩ := List.mem_map.mp hr
    exact clsLower_ci c

theorem REClosed_ssnPat : REClosed ssnPat := by
  refine REClosed_reSeq fun r hr => ?_
  fin_cases hr
  · trivial
  · exact REClosed_reps clsLower_isDigitChar 3
  · exact clsLower_dashC
  · exact REClosed_reps clsLower_isDigitChar 2
  · exact clsLower_dashC
  · exact REClosed_reps clsLower_isDigitChar 4
  · trivial

theorem REClosed_ccPat : REClosed ccPat := by
  refine REClosed_reSeq fun r hr => ?_
  fin_cases hr
  · trivial
  · exact REClosed_reps clsLower_isDigitChar 4
  · exact REClosed_optC clsLower_ccSepC
  · exact REClosed_reps clsLower_isDigitChar 4
  · exact REClosed_optC clsLower_ccSepC
  · exact REClosed_reps clsLower_isDigitChar 4
  · exact REClosed_optC clsLower_ccSepC
  · exact REClosed_reps clsLower_isDigitChar 4
  · trivial

theorem REClosed_emailPat : REClosed emailPat := by
  refine REClosed_reSeq fun r hr => ?_
  fin_cases hr
  · trivial
  · exact REClosed_plusC clsLower_emailLocalC
  · exact clsLower_atC
  · exact REClosed_plusC clsLower_emailDomC
  · exact clsLower_dotC
  · exact REClosed_reps clsLower_emailTldC 2
  · exact clsLower_emailTldC
  · trivial

theorem REClosed_mrnPat : REClosed mrnPat := by
  refine REClosed_reSeq fun r hr => ?_
  fin_cases hr
  · trivial
  · exact REClosed_litCI _
  · exact clsLower_isWsChar
  · exact REClosed_optC clsLower_colonC
  · exact clsLower_isWsChar
  · exact REClosed_plusC clsLower_isDigitChar

theorem REClosed_dobPat : REClosed dobPat := by
  refine REClosed_reSeq fun r hr => ?_
  fin_cases hr
  · trivial
  · exact REClosed_litCI _
  · exact clsLower_isWsChar
  · exact REClosed_optC clsLower_colonC
  · exact clsLower_isWsChar
  · exact clsLower_isDigitChar
  · exact REClosed_optC clsLower_isDigitChar
  · exact clsLower_dobSepC
  · exact clsLower_isDigitChar
  · exact REClosed_optC clsLower_isDigitChar
  · exact clsLower_dobSepC
  · exact REClosed_reps clsLower_isDigitChar 2
  · exact REClosed_optC clsLower_isDigitChar
  · exact REClosed_optC clsLower_isDigitChar

theorem REClosed_phonePat : REClosed phonePat := by
  refine REClosed_reSeq fun r hr => ?_
  fin_cases hr
  · trivial
  · exact REClosed_litCI _
  · exact clsLower_isWsChar
  · exact REClosed_optC clsLower_colonC
  · exact clsLower_isWsChar
  · exact REClosed_reps clsLower_isDigitChar 3
  · exact REClosed_optC clsLower_phoneSepC
  · exact REClosed_reps clsLower_isDigitChar 3
  · exact REClosed_optC clsLower_phoneSepC
  · exact REClosed_reps clsLower_isDigitChar 4

theorem eachMatchFlag_congr {msg : Str} {s t : Str} {pats : List RE}
    (h : ∀ p ∈ pats, reSearch p s = reSearch p t) :
    eachMatchFlag msg s pats = eachMatchFlag msg t pats := by
  induction pats with
  | nil => rfl
  | cons p ps ih =>
    rw [eachMatchFlag, eachMatchFlag, h p (List.mem_cons_self p ps),
      ih fun q hq => h q (List.mem_cons_of_mem p hq)]

/-- The topic selection `request_data.get('topic', '') or
request_data.get('query', '')` of `check_request`. -/
def requestTopic (rd : RequestData) : Str :=
  if (rd.topic.getD []).isEmpty then rd.query.getD [] else rd.topic.getD []

/-- The body of `check_request` given the selected topic and word count. -/
def crBody (T : Str) (wc : Int) : Except PyError ComplianceResult :=
  if T.isEmpty then .error .unboundLocalError
  else
    .ok (mkResult (termFlags inappTermMsg (lowerStr T) inappropriate_terms
      ++ (if wc > 2000 then [wcMsg] else [])
      ++ (if sensitive_topics.any (fun t => isSub t (lowerStr T)) then [sensMsg] else [])))

theorem check_request_eq_crBody (rd : RequestData) :
    check_request rd = crBody (requestTopic rd) (rd.word_count.getD 0) := rfl

theorem crBody_congr {T U : Str} (hT : lowerStr T = lowerStr U) (wc : Int) :
    crBody T wc = crBody U wc := by
  have hE : T.isEmpty = U.isEmpty := by
    rw [← isEmpty_lowerStr, hT, isEmpty_lowerStr]
  rw [crBody, crBody, hT]
  by_cases hb : U.isEmpty = true
  · rw [if_pos (hE.trans hb), if_pos hb]
  · rw [if_neg (by rw [hE]; exact hb), if_neg hb]

/-- C9: evaluation is case-insensitive: two texts that agree up to letter
case (equal lowercasings) receive the same `ComplianceResult` from every
evaluator operation — including the PII and identifier scans of
`check_clinical_data`, whose patterns are closed under case — and two
request maps whose `topic` and `query` agree up to case and whose
`word_count` agrees give the same `check_request` outcome; shown also at
a concrete mixed-case PII text and its lowercasing. -/
theorem evaluator_case_insensitive :
    (∀ s t : Str, lowerStr s = lowerStr t →
        check_content s = check_content t ∧
        check_clinical_data s = check_clinical_data t ∧
        check_clinical_content s = check_clinical_content t) ∧
    (∀ rd rd' : RequestData,
        rd.topic.map lowerStr = rd'.topic.map lowerStr →
        rd.query.map lowerStr = rd'.query.map lowerStr →
        rd.word_count = rd'.word_count →
        check_request rd = check_request rd') ∧
    check_clinical_data "SSN 123-45-6789, MRN: 77, A.B@X.COM".data
      = check_clinical_data (lowerStr "SSN 123-45-6789, MRN: 77, A.B@X.COM".data) := by
  have key : ∀ {s t : Str}, lowerStr s = lowerStr t →
      ∀ re, REClosed re → reSearch re s = reSearch re t := by
    intro s t h re hre
    rw [← reSearch_lower hre s, h, reSearch_lower hre t]
  refine ⟨fun s t h => ⟨?_, ?_, ?_⟩, fun rd rd' ht hq hw => ?_, ?_⟩
  · unfold check_content
    rw [h]
  · have hlen : s.length = t.length := by
      rw [← length_lowerStr s, h, length_lowerStr]
    have hpii : ∀ p ∈ sensitive_patterns, reSearch p s = reSearch p t := by
      intro p hp
      fin_cases hp
      · exact key h _ REClosed_ssnPat
      · exact key h _ REClosed_ccPat
      · exact key h _ REClosed_emailPat
    have hident : ∀ p ∈ identifier_patterns, reSearch p s = reSearch p t := by
      intro p hp
      fin_cases hp
      · exact key h _ REClosed_mrnPat
      · exact key h _ REClosed_dobPat
      · exact key h _ REClosed_phonePat
    unfold check_clinical_data
    rw [eachMatchFlag_congr hpii, eachMatchFlag_congr hident, hlen]
  · have hlen : s.length = t.length := by
      rw [← length_lowerStr s, h, length_lowerStr]
    unfold check_clinical_content
    rw [h, hlen]
  · have htop : lowerStr (rd.topic.getD []) = lowerStr (rd'.topic.getD []) := by
      cases h1 : rd.topic <;> cases h2 : rd'.topic <;>
        rw [h1, h2] at ht <;> simp_all
    have hqry : lowerStr (rd.query.getD []) = lowerStr (rd'.query.getD []) := by
      cases h1 : rd.query <;> cases h2 : rd'.query <;>
        rw [h1, h2] at hq <;> simp_all
    have hsel : lowerStr (requestTopic rd) = lowerStr (requestTopic rd') := by
      have hE : (rd.topic.getD []).isEmpty = (rd'.topic.getD []).isEmpty := by
        rw [← isEmpty_lowerStr, htop, isEmpty_lowerStr]
      rw [requestTopic, requestTopic]
      by_cases hb : (rd'.topic.getD []).isEmpty = true
      · rw [if_pos (hE.trans hb), if_pos hb]
        exact hqry
      · rw [if_neg (by rw [hE]; exact hb), if_neg hb]
        exact htop
    rw [check_request_eq_crBody, check_request_eq_crBody, hw,
      crBody_congr hsel]
  · decide

end NurseApi
